import Mathlib

/-!
# Verification of the WordPress publishing client (`src/app/wordpress.py`)

A shallow embedding of the WordPress REST client.  Strings are modelled as
`List Char` (`Str`); character classes mirror the ASCII behaviour of the
Python string methods and of the regular-expression classes used in
`_slugify` (the Python code runs the regexes with `re.UNICODE`; the embedding
restricts the classes to their ASCII part, which is the fragment the
repository's data exercises).  Remote HTTP traffic is modelled by explicit
oracles/response values passed to each embedded operation, and stateful
remote stores are threaded explicitly.  Python dictionaries are modelled as
association lists in which the *first* entry for a key wins and assignment
prepends, so that a later assignment overrides an earlier one exactly as in
Python.
-/

set_option maxRecDepth 10000

abbrev Str := List Char

/-- The four characters recognised by Python's `str.strip()` that occur in
this code base (space, tab, newline, carriage return). -/
def isWsC (c : Char) : Bool :=
  c.toNat == 32 || c.toNat == 9 || c.toNat == 10 || c.toNat == 13

/-- Python `str.strip()`: drop leading and trailing whitespace. -/
def pyStrip (s : Str) : Str :=
  ((s.dropWhile isWsC).reverse.dropWhile isWsC).reverse

/-- ASCII decimal digit. -/
def isDigitC (c : Char) : Bool := 48 ≤ c.toNat && c.toNat ≤ 57

/-- ASCII lowercase letter. -/
def isLowerC (c : Char) : Bool := 97 ≤ c.toNat && c.toNat ≤ 122

/-- ASCII uppercase letter. -/
def isUpperC (c : Char) : Bool := 65 ≤ c.toNat && c.toNat ≤ 90

/-- ASCII letter or digit (the ASCII part of the regex class `\w` minus `_`). -/
def isAlnumC (c : Char) : Bool := isDigitC c || isLowerC c || isUpperC c

/-- The regex class `\w`: alphanumeric or underscore. -/
def isWordC (c : Char) : Bool := isAlnumC c || c == '_'

/-- Python `str.lower()` on one character (ASCII). -/
def lowerC (c : Char) : Char :=
  if isUpperC c then Char.ofNat (c.toNat + 32) else c

/-- Python `str.lower()`. -/
def pyLower (s : Str) : Str := s.map lowerC

/-- Python `str.isdigit()`: non-empty and all digits. -/
def pyIsDigit (s : Str) : Bool := !s.isEmpty && s.all isDigitC

/-- Python `int(s)` for a string of decimal digits. -/
def pyInt (s : Str) : Nat := s.foldl (fun a c => 10 * a + (c.toNat - 48)) 0

/-- Python `s.split(',')` — split at every comma, keeping empty pieces
(`"".split(',') == ['']`). -/
def splitComma : Str → List Str
  | [] => [[]]
  | c :: rest =>
    if c = ',' then [] :: splitComma rest
    else match splitComma rest with
      | [] => [[c]]
      | p :: ps => (c :: p) :: ps

/-- Python `list(dict.fromkeys(l))`: deduplicate keeping the first occurrence,
preserving order.  `seen` carries the elements already emitted. -/
def pyDedupAux {α : Type} [DecidableEq α] (seen : List α) : List α → List α
  | [] => []
  | x :: xs => if x ∈ seen then pyDedupAux seen xs else x :: pyDedupAux (x :: seen) xs

def pyDedup {α : Type} [DecidableEq α] (l : List α) : List α := pyDedupAux [] l

/-- Python truthiness of an optional WordPress id: `None` and `0` are falsy. -/
def optTruthy : Option Nat → Bool
  | none => false
  | some n => n != 0

/-- Python `a or b` on optional ids: yields `b` whenever `a` is falsy. -/
def pyOr (a b : Option Nat) : Option Nat :=
  if optTruthy a then a else b

/-- Decimal digits of a natural number (most significant first); the first
argument is fuel, always called with at least the number itself. -/
def natDigitsAux : Nat → Nat → Str
  | 0, _ => []
  | fuel + 1, n =>
    if n = 0 then [] else natDigitsAux fuel (n / 10) ++ [Char.ofNat (n % 10 + 48)]

def natDigits (n : Nat) : Str := natDigitsAux n n

/-- Python `str(n)`. -/
def pyStrOfInt (n : Int) : Str :=
  if n = 0 then ['0']
  else if n < 0 then '-' :: natDigits n.natAbs
  else natDigits n.natAbs

/-- A Python dict `str -> int`, as an association list where the first entry
for a key wins. -/
abbrev CatCache := List (Str × Nat)

/-- Dict lookup (`m.get(k)`). -/
def alGet (m : CatCache) (k : Str) : Option Nat :=
  (m.find? (fun p => p.1 == k)).map (·.2)

/-- Dict assignment (`m[k] = v`): prepend, so the new entry shadows old ones. -/
def alSet (m : CatCache) (k : Str) (v : Nat) : CatCache := (k, v) :: m

/-! ## `_slugify` (wordpress.py lines 11–19) -/

/-- The regex class `[\s_-]` of the second substitution in `_slugify`. -/
def isSepC (c : Char) : Bool := isWsC c || c == '_' || c == '-'

/-- The substitution `re.sub(r'[\s_-]+', '-', s)`: replace each maximal run of separator
characters by a single hyphen.  The flag records whether the previous
character belonged to a separator run already replaced. -/
def collapseSeps : Bool → Str → Str
  | _, [] => []
  | prevSep, c :: rest =>
    if isSepC c then
      if prevSep then collapseSeps true rest
      else '-' :: collapseSeps true rest
    else c :: collapseSeps false rest

/-- Python `s.strip('-')`. -/
def stripHyph (s : Str) : Str :=
  ((s.dropWhile (· == '-')).reverse.dropWhile (· == '-')).reverse

/-- Model of `_slugify` (lines 11–19): lowercase and trim, remove characters outside
`[\w\s-]`, collapse separator runs to hyphens, strip outer hyphens, truncate
to 190 characters, and fall back to `'tag'` when empty. -/
def slugifyL (name : Str) : Str :=
  let s1 := pyLower (pyStrip name)
  let s2 := s1.filter (fun c => isWordC c || isWsC c || c == '-')
  let s3 := collapseSeps false s2
  let s4 := (stripHyph s3).take 190
  if s4.isEmpty then ['t', 'a', 'g'] else s4

/-- The relation forbidding two adjacent hyphens: the shape of `collapseSeps` output. -/
def NoHH (a b : Char) : Prop := ¬(a = '-' ∧ b = '-')

/-! ## Term creation (`_create_tag` lines 116–140, `_create_category` lines 195–218) -/

/-- The remote's answer to a term-creation POST: the HTTP status plus the
parts of the JSON body the code inspects — whether the body is a JSON object,
its `code` field, and the `id` field read on a 200/201 answer.  (A 2xx body
without an `id` field would raise `KeyError` in Python, outside this model;
the claims do not touch that path.) -/
structure TermCreateResp where
  status : Nat
  bodyIsDict : Bool
  bodyCode : Option Str
  bodyId : Nat

/-- Shared body of `_create_tag`/`_create_category`.  `resp = none` models the
POST itself raising a `RequestException` (caught, yielding `None`);
`existing` is the value the `_get_existing_*_id` re-query would return,
consulted only on a `term_exists` conflict. -/
def createTermResult (resp : Option TermCreateResp) (existing : Option Nat) : Option Nat :=
  match resp with
  | none => none
  | some r =>
    if r.status = 200 ∨ r.status = 201 then some r.bodyId
    else if r.status = 400 ∧ r.bodyIsDict = true ∧ r.bodyCode = some "term_exists".data then
      existing
    else none

/-- Model of `_create_tag` (lines 116–140). -/
def create_tag (resp : Option TermCreateResp) (existing : Option Nat) : Option Nat :=
  createTermResult resp existing

/-- Model of `_create_category` (lines 195–218): same structure as `_create_tag`. -/
def create_category (resp : Option TermCreateResp) (existing : Option Nat) : Option Nat :=
  createTermResult resp existing

/-! ## Tag-list resolution (`_ensure_tag_ids` lines 142–168) -/

/-- A tag or category reference from an incoming payload: a Python `int` or
`str`. -/
inductive TagIn
  | int (n : Int)
  | str (s : Str)
deriving DecidableEq

/-- Lines 148–153: an `int` becomes its decimal string, a `str` is split on
commas with each piece stripped and empty pieces dropped. -/
def normTagEntry : TagIn → List Str
  | .int n => [pyStrOfInt n]
  | .str s => ((splitComma s).map pyStrip).filter (fun p => !p.isEmpty)

/-- Lines 147–156: normalize, deduplicate keeping first occurrences, truncate
to `max_tags`.  (`if not tags: return []` on line 144 agrees with this on the
empty list.) -/
def normalizeTags (tags : List TagIn) (maxTags : Nat) : List Str :=
  (pyDedup ((tags.map normTagEntry).flatten)).take maxTags

/-- The remote tag API as `_ensure_tag_ids` consumes it: `lookup` models
`_get_existing_tag_id`, `create` models `_create_tag`; either may evolve the
remote state `σ`. -/
structure TagRemote (σ : Type) where
  lookup : σ → Str → Option Nat × σ
  create : σ → Str → Option Nat × σ

/-- Result of the resolution loop, instrumented with the names passed to the
remote lookup and creation calls. -/
structure TagRes (σ : Type) where
  ids : List Nat
  st : σ
  lookupCalls : List Str
  createCalls : List Str

/-- Python `if tag_id: tag_ids.append(tag_id)` — push a truthy id. -/
def pushTruthy (o : Option Nat) (ids : List Nat) : List Nat :=
  if optTruthy o then o.getD 0 :: ids else ids

/-- The per-name loop of `_ensure_tag_ids` (lines 158–165): an all-digit name
becomes an id directly; a name of length ≥ 2 is looked up and, when the
lookup result is falsy, created (`lookup or create`); anything else is
skipped. -/
def ensureGo {σ : Type} (rem : TagRemote σ) : List Str → σ → TagRes σ
  | [], st => ⟨[], st, [], []⟩
  | t :: rest, st =>
    if pyIsDigit t then
      let r := ensureGo rem rest st
      { r with ids := pyInt t :: r.ids }
    else if 2 ≤ t.length then
      let look := rem.lookup st t
      if optTruthy look.1 then
        let r := ensureGo rem rest look.2
        { r with ids := pushTruthy look.1 r.ids, lookupCalls := t :: r.lookupCalls }
      else
        let made := rem.create look.2 t
        let r := ensureGo rem rest made.2
        { r with ids := pushTruthy made.1 r.ids, lookupCalls := t :: r.lookupCalls,
                 createCalls := t :: r.createCalls }
    else
      ensureGo rem rest st

/-- Model of `_ensure_tag_ids` (lines 142–168). -/
def ensure_tag_ids {σ : Type} (rem : TagRemote σ) (tags : List TagIn) (maxTags : Nat)
    (st : σ) : TagRes σ :=
  ensureGo rem (normalizeTags tags maxTags) st

/-! ## Category resolution (`resolve_category_names_to_ids` lines 220–252) -/

/-- The remote category-creation API as the resolver consumes it
(`_create_category`). -/
structure CatRemote (σ : Type) where
  create : σ → Str → Option Nat × σ

/-- Resolver result: ids, the updated `categories_map` cache, the remote
state, and the names passed to creation calls. -/
structure CatRes (σ : Type) where
  ids : List Nat
  cache : CatCache
  st : σ
  createCalls : List Str

/-- The per-name loop (lines 231–247): check the cache by lowercased name then
slug; on a miss create, and on a truthy creation write the id back into the
cache under both keys (name first, then slug). -/
def resolveGo {σ : Type} (rem : CatRemote σ) : List Str → CatCache → σ → CatRes σ
  | [], cache, st => ⟨[], cache, st, []⟩
  | n :: rest, cache, st =>
    let slug := slugifyL n
    let cached := pyOr (alGet cache (pyLower n)) (alGet cache slug)
    if optTruthy cached then
      let r := resolveGo rem rest cache st
      { r with ids := pushTruthy cached r.ids }
    else
      let made := rem.create st n
      let cache' := if optTruthy made.1 then
          alSet (alSet cache (pyLower n) (made.1.getD 0)) slug (made.1.getD 0)
        else cache
      let r := resolveGo rem rest cache' made.2
      { r with ids := pushTruthy made.1 r.ids, createCalls := n :: r.createCalls }

/-- Line 228: strip, drop empties, deduplicate keeping first occurrences. -/
def cleanNames (names : List Str) : List Str :=
  pyDedup ((names.filter (fun n => !(pyStrip n).isEmpty)).map pyStrip)

/-- Model of `resolve_category_names_to_ids` (lines 220–252).  `list(set(cat_ids))` on
line 250 is modelled as first-occurrence deduplication (Python's set
iteration order is unspecified; only the deduplication is observable). -/
def resolve_category_names_to_ids {σ : Type} (rem : CatRemote σ) (names : List Str)
    (cache : CatCache) (st : σ) : CatRes σ :=
  let r := resolveGo rem (cleanNames names) cache st
  { r with ids := pyDedup r.ids }

/-! ## Concrete remote stores used to discharge the resolver claims -/

/-- A category remote on which creation always succeeds, handing out fresh
ids from a counter. -/
def freshCatRemote : CatRemote Nat := ⟨fun st _ => (some st, st + 1)⟩

/-- A stored WordPress tag term: id, name and slug (as posted by
`_create_tag`). -/
structure TagEntry where
  id : Nat
  name : Str
  slug : Str
deriving DecidableEq

/-- Live remote tag store. -/
structure TagStore where
  entries : List TagEntry
  nextId : Nat

/-- Model of `_get_existing_tag_id` (lines 93–114) against a live store: the remote
search yields candidates, filtered by exact case-insensitive name match
first, then by slug equality with `_slugify(name)`. -/
def tagLookup (st : TagStore) (name : Str) : Option Nat :=
  match st.entries.find? (fun e => pyLower (pyStrip e.name) == pyLower (pyStrip name)) with
  | some e => some e.id
  | none =>
    match st.entries.find? (fun e => e.slug == slugifyL name) with
    | some e => some e.id
    | none => none

/-- Model of `_create_tag` hitting a live store: WordPress inserts the term (payload
`{"name": name, "slug": _slugify(name)}`) and answers 201 with a fresh id. -/
def tagStoreCreate (st : TagStore) (name : Str) : Option Nat × TagStore :=
  (some st.nextId, ⟨st.entries ++ [⟨st.nextId, name, slugifyL name⟩], st.nextId + 1⟩)

def wpTagRemote : TagRemote TagStore :=
  ⟨fun st n => (tagLookup st n, st), fun st n => tagStoreCreate st n⟩

/-- C2's category half: resolving `n1` then `n2` through one resolver cache
yields the same id with at most one creation; a cache hit never creates; a
creation writes the id back under both the lowercased name and the slug. -/
def CatTwoNameClaim (cache : CatCache) (k : Nat) (n1 n2 : Str) : Prop :=
  let r1 := resolve_category_names_to_ids freshCatRemote [n1] cache k
  let r2 := resolve_category_names_to_ids freshCatRemote [n2] r1.cache r1.st
  (∃ i, 0 < i ∧ r1.ids = [i] ∧ r2.ids = [i]) ∧
  r1.createCalls.length + r2.createCalls.length ≤ 1 ∧
  (optTruthy (pyOr (alGet cache (pyLower (pyStrip n1)))
      (alGet cache (slugifyL (pyStrip n1)))) = true → r1.createCalls = []) ∧
  (r1.createCalls ≠ [] →
    alGet r1.cache (pyLower (pyStrip n1)) = r1.ids.head? ∧
    alGet r1.cache (slugifyL (pyStrip n1)) = r1.ids.head?)

/-- C2's tag half: resolving `n1` then `n2` against the live tag store yields
the same id with at most one creation call. -/
def TagTwoNameClaim (store : TagStore) (n1 n2 : Str) : Prop :=
  let t1 := ensure_tag_ids wpTagRemote [.str n1] 10 store
  let t2 := ensure_tag_ids wpTagRemote [.str n2] 10 t1.st
  (∃ j, 0 < j ∧ t1.ids = [j] ∧ t2.ids = [j]) ∧
  t1.createCalls.length + t2.createCalls.length ≤ 1

/-! ## Media upload (`upload_media_from_url` lines 254–289,
`set_media_alt_text` lines 291–306) -/

/-- One whole upload attempt (image download plus POST to `/media`): it
yields an attachment record, fails with a network-level error
(`requests.Timeout` / `requests.ConnectionError`), or fails with any other
exception — e.g. `raise_for_status` on a 4xx/5xx answer. -/
inductive UploadOutcome
  | success (attachment : Nat)
  | netErr
  | otherErr

/-- The retry loop (lines 259–289): attempts are numbered from 1; a network
error sleeps `2 * attempt` seconds and retries; any other error breaks
immediately; a success returns the attachment.  The result carries the
attachment (or `none`), the value of `attempt` at loop exit, and the list of
sleeps performed. -/
def uploadGo (outcome : Nat → UploadOutcome) : Nat → Nat → Option Nat × Nat × List Nat
  | attempt, 0 => (none, attempt - 1, [])
  | attempt, remaining + 1 =>
    match outcome attempt with
    | .success a => (some a, attempt, [])
    | .otherErr => (none, attempt, [])
    | .netErr =>
      let r := uploadGo outcome (attempt + 1) remaining
      (r.1, r.2.1, 2 * attempt :: r.2.2)

/-- Model of `upload_media_from_url` (lines 254–289).  `alt_text` is accepted but — as
in the source — never used.  The last component counts the
`set_media_alt_text` calls the function performs, which is zero: the source
never invokes it.  (A `max_attempts` of 0 would crash Python at line 288
with an unbound `attempt`; the model returns the failure with 0 attempts.) -/
def upload_media_from_url (outcome : Nat → UploadOutcome) (alt_text : Str)
    (maxAttempts : Nat) : Option Nat × Nat × List Nat × Nat :=
  let r := uploadGo outcome 1 maxAttempts
  (r.1, r.2.1, r.2.2, 0)

/-- Model of `set_media_alt_text` (lines 291–306): empty alt text returns `False`
without a request; otherwise the answer of the POST decides the Boolean, and
a request failure is caught and returns `False` — it never raises. -/
def set_media_alt_text (postOk : Bool) (alt_text : Str) : Bool :=
  if alt_text.isEmpty then false else postOk

/-! ## Paginated read-back (`get_published_posts` lines 377–433,
`_fetch_all_categories` lines 50–84) -/

/-- A page answer: the decoded JSON list of items, or a request failure
(`RequestException`, including `raise_for_status` on an error status). -/
inductive PageResp (α : Type)
  | ok (items : List α)
  | err

/-- Python truthiness of the `max_posts` parameter: `None` and `0` disable
the limit (`if max_posts and ...`). -/
def optPos : Option Nat → Option Nat
  | none => none
  | some n => if n = 0 then none else some n

/-- Python line 393: `if max_posts and len(all_posts) >= max_posts`. -/
def limitReached (maxPosts : Option Nat) (len : Nat) : Bool :=
  match optPos maxPosts with
  | some m => decide (m ≤ len)
  | none => false

/-- The `while True` loop of `get_published_posts` (lines 391–426): stop when
the limit is reached; request the page (counted); stop on a request failure
or an empty page; extend the accumulator; stop when the page is shorter than
`per_page = 100`; otherwise continue with the next page.  `fuel` only bounds
the recursion of the model (the Python loop terminates because a finite
store eventually produces a short page); every claim instantiates it above
the number of requests performed. -/
def postsGo (pages : Nat → PageResp Nat) (maxPosts : Option Nat) :
    Nat → Nat → List Nat → Nat → List Nat × Nat
  | 0, _, acc, reqs => (acc, reqs)
  | fuel + 1, page, acc, reqs =>
    if limitReached maxPosts acc.length then (acc, reqs)
    else
      match pages page with
      | .err => (acc, reqs + 1)
      | .ok posts =>
        if posts.isEmpty then (acc, reqs + 1)
        else if posts.length < 100 then (acc ++ posts, reqs + 1)
        else postsGo pages maxPosts fuel (page + 1) (acc ++ posts) (reqs + 1)

/-- Model of `get_published_posts` (lines 377–433): run the loop from page 1 and trim
the result to `max_posts` when it is set.  Returns the accumulated posts and
the number of page requests made. -/
def get_published_posts (pages : Nat → PageResp Nat) (maxPosts : Option Nat)
    (fuel : Nat) : List Nat × Nat :=
  let r := postsGo pages maxPosts fuel 1 [] 0
  (match optPos maxPosts with
   | some m => r.1.take m
   | none => r.1, r.2)

/-- A category item as `_fetch_all_categories` reads it (`_fields`
projection `id,name,slug`). -/
structure CatItem where
  name : Str
  slug : Str
  id : Nat

/-- The loop of `_fetch_all_categories` (lines 57–81): request (counted),
stop on a failure or an empty page, insert `name.lower()` and `slug` for
every item, stop on a short page, else continue. -/
def catsGo (pages : Nat → PageResp CatItem) :
    Nat → Nat → CatCache → Nat → CatCache × Nat
  | 0, _, acc, reqs => (acc, reqs)
  | fuel + 1, page, acc, reqs =>
    match pages page with
    | .err => (acc, reqs + 1)
    | .ok cats =>
      if cats.isEmpty then (acc, reqs + 1)
      else
        let acc' := cats.foldl
          (fun m c => alSet (alSet m (pyLower c.name) c.id) c.slug c.id) acc
        if cats.length < 100 then (acc', reqs + 1)
        else catsGo pages fuel (page + 1) acc' (reqs + 1)

/-- Model of `_fetch_all_categories` (lines 50–84). -/
def fetch_all_categories (pages : Nat → PageResp CatItem) (fuel : Nat) :
    CatCache × Nat :=
  catsGo pages fuel 1 [] 0

/-! ## Post creation (`create_post` lines 323–375) -/

/-- The payload handed to `create_post`.  `status = none` models an absent
`'status'` key; empty `tags`/`categories` model absent-or-empty fields (both
falsy in the `if 'tags' in payload and payload['tags']` guards, lines 327 and
331, and then left untouched). -/
structure PostPayload where
  title : Str
  content : Str
  status : Option Str
  tags : List TagIn
  categories : List TagIn

/-- The payload as POSTed to `/posts` after taxonomy resolution and the
`setdefault('status', 'publish')` of line 349. -/
structure SentPost where
  title : Str
  content : Str
  status : Str
  tags : List Nat
  categories : List Int

/-- The remote's answer to the POST: status code, body text and the `id`
field of the JSON body — or a network failure raising `RequestException`. -/
inductive PostResp
  | resp (status : Nat) (body : Str) (idField : Option Nat)
  | netErr

/-- Lines 326–349 of `create_post`: resolve the tag field (when truthy) via
`_ensure_tag_ids`, split the category field into numeric ids and names,
resolve the names via `resolve_category_names_to_ids`, deduplicate
(`list(set(...))`, modelled as first-occurrence dedup), and default the
status to `'publish'` when the caller supplied none. -/
def buildSentPost {σ τ : Type} (tagRem : TagRemote σ) (catRem : CatRemote τ)
    (stT : σ) (cache : CatCache) (stC : τ) (p : PostPayload) : SentPost :=
  let tagIds : List Nat :=
    if p.tags.isEmpty then [] else (ensure_tag_ids tagRem p.tags 10 stT).ids
  let catIds : List Int :=
    if p.categories.isEmpty then [] else
      let names := p.categories.filterMap (fun c => match c with
        | .str s => if pyIsDigit s then none else some s
        | .int _ => none)
      let direct : List Int := p.categories.filterMap (fun c => match c with
        | .int n => some n
        | .str s => if pyIsDigit s then some ((pyInt s : Nat) : Int) else none)
      let resolved : List Int :=
        if names.isEmpty then []
        else ((resolve_category_names_to_ids catRem names cache stC).ids.map
          (fun i => ((i : Nat) : Int)))
      pyDedup (direct ++ resolved)
  { title := p.title, content := p.content,
    status := match p.status with | none => "publish".data | some s => s,
    tags := tagIds, categories := catIds }

/-- Model of `create_post` (lines 323–375): submit the built payload; on `response.ok`
(status < 400) return the body's `id` field; otherwise log the remote status
and body text (the second component collects such surfaced pairs) and return
no id; a network failure also returns no id.  The built payload is returned
for inspection. -/
def create_post {σ τ : Type} (tagRem : TagRemote σ) (catRem : CatRemote τ)
    (send : SentPost → PostResp) (stT : σ) (cache : CatCache) (stC : τ)
    (p : PostPayload) : Option Nat × List (Nat × Str) × SentPost :=
  let sent := buildSentPost tagRem catRem stT cache stC p
  match send sent with
  | .netErr => (none, [], sent)
  | .resp st body idf =>
    if st < 400 then (idf, [], sent)
    else (none, [(st, body)], sent)

/-! ## Client construction (`__init__` lines 24–48) -/

structure WpConfig where
  url : Option Str
  user : Option Str
  password : Option Str

/-- Python `base_url.rstrip('/')`. -/
def rstripSlash (s : Str) : Str := (s.reverse.dropWhile (· == '/')).reverse

/-- Substring test, for `'/wp-json/wp/v2' not in base_url` (line 30). -/
def containsSub (needle : Str) : Str → Bool
  | [] => needle.isEmpty
  | c :: rest => needle.isPrefixOf (c :: rest) || containsSub needle rest

/-- Model of `__init__` (lines 24–48): `(config.get('url') or "").rstrip('/')`; an
empty result raises `ValueError` before any remote call (the request count,
second component, is 0 on that path); otherwise the REST path is appended
when absent, the static category map is lowercased
(`{k.lower(): v for k, v in categories_map.items()}`) and the live bulk
fetch is merged over it by `dict.update` — fetched entries shadow static
ones with the same key (in the first-entry-wins association-list model, the
fetched list is placed in front). -/
def clientInit (cfg : WpConfig) (staticMap : CatCache)
    (pages : Nat → PageResp CatItem) (fuel : Nat) :
    Except Str (Str × CatCache) × Nat :=
  let base := rstripSlash (match cfg.url with | none => [] | some u => u)
  if base.isEmpty then (.error "WORDPRESS_URL is not configured.".data, 0)
  else
    let apiUrl := if containsSub "/wp-json/wp/v2".data base then base
      else base ++ "/wp-json/wp/v2".data
    let static' := staticMap.map (fun q => (pyLower q.1, q.2))
    let fetched := fetch_all_categories pages fuel
    (.ok (apiUrl, fetched.1 ++ static'), fetched.2)

/-! ## Theorems -/

example : slugifyL "  Hello,  World_FC! ".data = "hello-world-fc".data := by decide
example : slugifyL "___".data = "tag".data := by decide
example : slugifyL "Messi".data = "messi".data := by decide

/-! ## Character-level lemmas for `_slugify` -/

theorem charOfNat_toNat {n : Nat} (h : n < 55296) : (Char.ofNat n).toNat = n := by
  unfold Char.ofNat
  rw [dif_pos (Or.inl h : n.isValidChar)]
  rfl

theorem lowerC_toNat (c : Char) :
    (lowerC c).toNat = if 65 ≤ c.toNat ∧ c.toNat ≤ 90 then c.toNat + 32 else c.toNat := by
  unfold lowerC isUpperC
  by_cases h : 65 ≤ c.toNat ∧ c.toNat ≤ 90
  · have hb : (65 ≤ c.toNat && c.toNat ≤ 90) = true := by
      simp only [Bool.and_eq_true, decide_eq_true_eq]; exact h
    rw [if_pos hb, if_pos h, charOfNat_toNat (by omega)]
  · have hb : (65 ≤ c.toNat && c.toNat ≤ 90) = false := by
      simp only [Bool.and_eq_false_iff, decide_eq_false_iff_not]; omega
    rw [if_neg (by simp [hb]), if_neg h]

theorem isUpperC_lowerC (c : Char) : isUpperC (lowerC c) = false := by
  have h := lowerC_toNat c
  unfold isUpperC
  by_cases hc : 65 ≤ c.toNat ∧ c.toNat ≤ 90
  · rw [if_pos hc] at h
    simp only [h, Bool.and_eq_false_iff, decide_eq_false_iff_not]
    omega
  · rw [if_neg hc] at h
    simp only [h, Bool.and_eq_false_iff, decide_eq_false_iff_not]
    omega

theorem lowerC_fixed {c : Char} (h : isUpperC c = false) : lowerC c = c := by
  unfold lowerC
  rw [h]
  rfl

theorem mem_collapseSeps : ∀ (l : Str) (b : Bool) (c : Char), c ∈ collapseSeps b l →
    c = '-' ∨ (c ∈ l ∧ isSepC c = false) := by
  intro l
  induction l with
  | nil => intro b c h; simp [collapseSeps] at h
  | cons x xs ih =>
    intro b c h
    unfold collapseSeps at h
    by_cases hx : isSepC x = true
    · rw [if_pos hx] at h
      cases b with
      | true =>
        simp only [if_true] at h
        rcases ih true c h with h' | ⟨hm, hs⟩
        · exact Or.inl h'
        · exact Or.inr ⟨List.mem_cons_of_mem _ hm, hs⟩
      | false =>
        simp only [Bool.false_eq_true, if_false, List.mem_cons] at h
        rcases h with h | h
        · exact Or.inl h
        · rcases ih true c h with h' | ⟨hm, hs⟩
          · exact Or.inl h'
          · exact Or.inr ⟨List.mem_cons_of_mem _ hm, hs⟩
    · rw [if_neg hx] at h
      rcases List.mem_cons.mp h with h | h
      · subst h
        exact Or.inr ⟨List.mem_cons_self _ _, Bool.not_eq_true _ ▸ hx⟩
      · rcases ih false c h with h' | ⟨hm, hs⟩
        · exact Or.inl h'
        · exact Or.inr ⟨List.mem_cons_of_mem _ hm, hs⟩

theorem head_collapseSeps_true : ∀ (l : Str) (c : Char),
    (collapseSeps true l).head? = some c → c ≠ '-' := by
  intro l
  induction l with
  | nil => intro c h; simp [collapseSeps] at h
  | cons x xs ih =>
    intro c h
    unfold collapseSeps at h
    by_cases hx : isSepC x = true
    · rw [if_pos hx] at h
      simp only [if_true] at h
      exact ih c h
    · rw [if_neg hx] at h
      simp only [List.head?_cons, Option.some.injEq] at h
      subst h
      intro hc
      subst hc
      exact hx (by decide)

theorem chain'_collapseSeps : ∀ (l : Str) (b : Bool), List.Chain' NoHH (collapseSeps b l) := by
  intro l
  induction l with
  | nil => intro b; simp [collapseSeps]
  | cons x xs ih =>
    intro b
    unfold collapseSeps
    by_cases hx : isSepC x = true
    · rw [if_pos hx]
      cases b with
      | true => simpa using ih true
      | false =>
        simp only [Bool.false_eq_true, if_false]
        rw [List.chain'_cons']
        refine ⟨?_, ih true⟩
        intro y hy hcon
        exact head_collapseSeps_true xs y hy hcon.2
    · rw [if_neg hx]
      rw [List.chain'_cons']
      refine ⟨?_, ih false⟩
      intro y _ hcon
      exact hx (hcon.1 ▸ (by decide))

theorem head?_dropWhile_not (p : Char → Bool) : ∀ (l : Str) (c : Char),
    (l.dropWhile p).head? = some c → p c = false := by
  intro l
  induction l with
  | nil => intro c h; simp at h
  | cons x xs ih =>
    intro c h
    rw [List.dropWhile_cons] at h
    by_cases hx : p x = true
    · rw [if_pos hx] at h; exact ih c h
    · rw [if_neg hx] at h
      simp only [List.head?_cons, Option.some.injEq] at h
      subst h
      exact Bool.not_eq_true _ ▸ hx

theorem dropWhile_suffix' (p : Char → Bool) (l : Str) : l.dropWhile p <:+ l := by
  induction l with
  | nil => exact List.suffix_rfl
  | cons x xs ih =>
    rw [List.dropWhile_cons]
    by_cases hx : p x = true
    · rw [if_pos hx]; exact ih.trans (List.suffix_cons x xs)
    · rw [if_neg hx]

theorem stripHyph_within (s : Str) : stripHyph s <:+: s := by
  unfold stripHyph
  have h1 : s.dropWhile (· == '-') <:+ s := dropWhile_suffix' _ s
  have h2 : ((s.dropWhile (· == '-')).reverse.dropWhile (· == '-')).reverse <+:
      s.dropWhile (· == '-') := by
    have := dropWhile_suffix' (· == '-') (s.dropWhile (· == '-')).reverse
    have h3 := List.reverse_prefix.mpr this
    simpa using h3
  exact (List.IsPrefix.isInfix h2).trans (List.IsSuffix.isInfix h1)

theorem prefix_head?_eq {l₁ l₂ : Str} (h : l₁ <+: l₂) {c : Char}
    (hc : l₁.head? = some c) : l₂.head? = some c := by
  obtain ⟨t, rfl⟩ := h
  cases l₁ with
  | nil => simp at hc
  | cons x xs => simpa using hc

theorem head?_stripHyph (s : Str) {c : Char} (h : (stripHyph s).head? = some c) : c ≠ '-' := by
  unfold stripHyph at h
  have hpre : ((s.dropWhile (· == '-')).reverse.dropWhile (· == '-')).reverse <+:
      s.dropWhile (· == '-') := by
    have := dropWhile_suffix' (· == '-') (s.dropWhile (· == '-')).reverse
    have h3 := List.reverse_prefix.mpr this
    simpa using h3
  have := prefix_head?_eq hpre h
  have hp := head?_dropWhile_not (· == '-') s c this
  simpa using hp

theorem getLast?_stripHyph (s : Str) {c : Char} (h : (stripHyph s).getLast? = some c) :
    c ≠ '-' := by
  unfold stripHyph at h
  rw [List.getLast?_reverse] at h
  have hp := head?_dropWhile_not (· == '-') _ c h
  simpa using hp

theorem dropWhile_eq_self_of_head (p : Char → Bool) (l : Str)
    (h : ∀ c, l.head? = some c → p c = false) : l.dropWhile p = l := by
  cases l with
  | nil => rfl
  | cons x xs =>
    rw [List.dropWhile_cons, if_neg]
    simp [h x rfl]

theorem pyStrip_eq_self {r : Str} (h : ∀ c ∈ r, isWsC c = false) : pyStrip r = r := by
  unfold pyStrip
  rw [dropWhile_eq_self_of_head _ _ (fun c hc => h c (List.mem_of_mem_head? hc))]
  rw [dropWhile_eq_self_of_head _ _ (fun c hc =>
    h c (List.mem_reverse.mp (List.mem_of_mem_head? hc)))]
  exact List.reverse_reverse r

theorem pyLower_eq_self {r : Str} (h : ∀ c ∈ r, isUpperC c = false) : pyLower r = r := by
  unfold pyLower
  rw [List.map_congr_left (fun c hc => lowerC_fixed (h c hc))]
  exact List.map_id r

theorem collapseSeps_eq_self : ∀ (l : Str),
    (∀ c ∈ l, isSepC c = false ∨ c = '-') → List.Chain' NoHH l →
    collapseSeps false l = l ∧ (l.head? ≠ some '-' → collapseSeps true l = l) := by
  intro l
  induction l with
  | nil => intro _ _; exact ⟨rfl, fun _ => rfl⟩
  | cons x xs ih =>
    intro hmem hch
    have hch' := List.chain'_cons'.mp hch
    have ihxs := ih (fun c hc => hmem c (List.mem_cons_of_mem _ hc)) hch'.2
    by_cases hx : isSepC x = true
    · have hx' : x = '-' := by
        rcases hmem x (List.mem_cons_self _ _) with h | h
        · rw [hx] at h; cases h
        · exact h
      subst hx'
      have htail : collapseSeps true xs = xs := by
        apply ihxs.2
        intro hhd
        have := hch'.1 '-' hhd
        exact this ⟨rfl, rfl⟩
      refine ⟨?_, ?_⟩
      · unfold collapseSeps
        rw [if_pos hx]
        simp only [Bool.false_eq_true, if_false, htail]
      · intro hne
        exact absurd rfl hne
    · refine ⟨?_, ?_⟩
      · unfold collapseSeps
        rw [if_neg hx, ihxs.1]
      · intro _
        unfold collapseSeps
        rw [if_neg hx, ihxs.1]

theorem stripHyph_eq_self {r : Str} (hh : r.head? ≠ some '-')
    (hl : r.getLast? ≠ some '-') : stripHyph r = r := by
  unfold stripHyph
  have h1 : r.dropWhile (· == '-') = r := by
    apply dropWhile_eq_self_of_head
    intro c hc
    simp only [beq_eq_false_iff_ne, ne_eq]
    intro h
    exact hh (h ▸ hc)
  rw [h1]
  have h2 : r.reverse.dropWhile (· == '-') = r.reverse := by
    apply dropWhile_eq_self_of_head
    intro c hc
    rw [List.head?_reverse] at hc
    simp only [beq_eq_false_iff_ne, ne_eq]
    intro h
    exact hl (h ▸ hc)
  rw [h2, List.reverse_reverse]

theorem slugifyL_eq (s : Str) : slugifyL s =
    (if ((stripHyph (collapseSeps false
        ((pyLower (pyStrip s)).filter (fun c => isWordC c || isWsC c || c == '-')))).take
          190).isEmpty
     then ['t', 'a', 'g']
     else (stripHyph (collapseSeps false
        ((pyLower (pyStrip s)).filter (fun c => isWordC c || isWsC c || c == '-')))).take
          190) := rfl

theorem head?_take190 (l : Str) : (l.take 190).head? = l.head? := by
  cases l <;> rfl

theorem mem_slugifyL {s : Str} {c : Char} (h : c ∈ slugifyL s) :
    c = '-' ∨ (isAlnumC c = true ∧ isUpperC c = false) := by
  rw [slugifyL_eq] at h
  by_cases he : ((stripHyph (collapseSeps false
      ((pyLower (pyStrip s)).filter (fun c => isWordC c || isWsC c || c == '-')))).take
        190).isEmpty = true
  · rw [if_pos he] at h
    simp only [List.mem_cons, List.not_mem_nil, or_false] at h
    rcases h with rfl | rfl | rfl <;> exact Or.inr ⟨by decide, by decide⟩
  · rw [if_neg he] at h
    have h3 : c ∈ collapseSeps false
        ((pyLower (pyStrip s)).filter (fun c => isWordC c || isWsC c || c == '-')) :=
      List.IsInfix.subset (stripHyph_within _) ((List.take_sublist _ _).subset h)
    rcases mem_collapseSeps _ false c h3 with hc | ⟨hm, hsep⟩
    · exact Or.inl hc
    · right
      have hmf := List.mem_filter.mp hm
      have hup : isUpperC c = false := by
        rcases List.mem_map.mp hmf.1 with ⟨a, _, rfl⟩
        exact isUpperC_lowerC a
      refine ⟨?_, hup⟩
      have hpred := hmf.2
      simp only [Bool.or_eq_true] at hpred
      simp only [isSepC, Bool.or_eq_false_iff] at hsep
      rcases hpred with (hw | hws) | hhy
      · simp only [isWordC, Bool.or_eq_true] at hw
        rcases hw with hw | hw
        · exact hw
        · rw [hw] at hsep
          simp at hsep
      · rw [hws] at hsep
        simp at hsep
      · rw [hhy] at hsep
        simp at hsep

theorem chain'_slugifyL (s : Str) : List.Chain' NoHH (slugifyL s) := by
  rw [slugifyL_eq]
  by_cases he : ((stripHyph (collapseSeps false
      ((pyLower (pyStrip s)).filter (fun c => isWordC c || isWsC c || c == '-')))).take
        190).isEmpty = true
  · rw [if_pos he]
    refine List.Chain'.cons ?_ (List.Chain'.cons ?_ (List.chain'_singleton _)) <;>
      simp [NoHH]
  · rw [if_neg he]
    exact List.Chain'.infix (chain'_collapseSeps _ false)
      ((List.IsPrefix.isInfix (List.take_prefix _ _)).trans (stripHyph_within _))

theorem head?_slugifyL (s : Str) : (slugifyL s).head? ≠ some '-' := by
  rw [slugifyL_eq]
  by_cases he : ((stripHyph (collapseSeps false
      ((pyLower (pyStrip s)).filter (fun c => isWordC c || isWsC c || c == '-')))).take
        190).isEmpty = true
  · rw [if_pos he]
    simp
  · rw [if_neg he]
    intro h
    rw [head?_take190] at h
    exact head?_stripHyph _ h rfl

theorem length_slugifyL (s : Str) : (slugifyL s).length ≤ 190 := by
  rw [slugifyL_eq]
  by_cases he : ((stripHyph (collapseSeps false
      ((pyLower (pyStrip s)).filter (fun c => isWordC c || isWsC c || c == '-')))).take
        190).isEmpty = true
  · rw [if_pos he]; decide
  · rw [if_neg he]
    rw [List.length_take]
    exact min_le_left _ _

theorem slugifyL_ne_nil (s : Str) : slugifyL s ≠ [] := by
  rw [slugifyL_eq]
  by_cases he : ((stripHyph (collapseSeps false
      ((pyLower (pyStrip s)).filter (fun c => isWordC c || isWsC c || c == '-')))).take
        190).isEmpty = true
  · rw [if_pos he]; decide
  · rw [if_neg he]
    simpa [List.isEmpty_iff] using he

theorem slugifyL_fixed {r : Str}
    (hmem : ∀ c ∈ r, c = '-' ∨ (isAlnumC c = true ∧ isUpperC c = false))
    (hch : List.Chain' NoHH r) (hne : r ≠ [])
    (hh : r.head? ≠ some '-') (hl : r.getLast? ≠ some '-')
    (hlen : r.length ≤ 190) : slugifyL r = r := by
  have hnum : ∀ c ∈ r, c ≠ '-' →
      (48 ≤ c.toNat ∧ c.toNat ≤ 57) ∨ (97 ≤ c.toNat ∧ c.toNat ≤ 122) := by
    intro c hc hcc
    rcases hmem c hc with rfl | ⟨ha, hu⟩
    · exact absurd rfl hcc
    · simp only [isAlnumC, isDigitC, isLowerC, isUpperC, Bool.or_eq_true, Bool.and_eq_true,
        decide_eq_true_eq, Bool.and_eq_false_iff, decide_eq_false_iff_not] at ha hu
      omega
  have hws : ∀ c ∈ r, isWsC c = false := by
    intro c hc
    by_cases hcc : c = '-'
    · subst hcc; decide
    · have := hnum c hc hcc
      simp only [isWsC, Bool.or_eq_false_iff, beq_eq_false_iff_ne, ne_eq]
      omega
  have hup : ∀ c ∈ r, isUpperC c = false := by
    intro c hc
    by_cases hcc : c = '-'
    · subst hcc; decide
    · have := hnum c hc hcc
      simp only [isUpperC, Bool.and_eq_false_iff, decide_eq_false_iff_not]
      omega
  have hpred : ∀ c ∈ r, (isWordC c || isWsC c || c == '-') = true := by
    intro c hc
    by_cases hcc : c = '-'
    · subst hcc; decide
    · have := hnum c hc hcc
      simp only [Bool.or_eq_true, isWordC, isAlnumC, isDigitC, isLowerC, isUpperC,
        Bool.and_eq_true, decide_eq_true_eq]
      left
      left
      left
      omega
  have hsepOr : ∀ c ∈ r, isSepC c = false ∨ c = '-' := by
    intro c hc
    by_cases hcc : c = '-'
    · exact Or.inr hcc
    · left
      have hnc := hnum c hc hcc
      have h1 : isWsC c = false := hws c hc
      have h2 : (c == '_') = false := by
        rw [beq_eq_false_iff_ne]
        intro h
        subst h
        exact absurd hnc (by decide)
      have h3 : (c == '-') = false := by
        rw [beq_eq_false_iff_ne]
        exact hcc
      simp [isSepC, h1, h2, h3]
  rw [slugifyL_eq, pyStrip_eq_self hws, pyLower_eq_self hup,
    List.filter_eq_self.mpr hpred, (collapseSeps_eq_self r hsepOr hch).1,
    stripHyph_eq_self hh hl, List.take_of_length_le hlen,
    if_neg (by simpa [List.isEmpty_iff] using hne)]

/-- Claim C6, counterexample:  `_slugify` is *not* idempotent: for an input of
189 `'a'`s followed by `"-a"` the slug is truncated at the 190-character
bound to end in a hyphen, and a second application strips that hyphen. -/
theorem slugify_not_idempotent :
    slugifyL (slugifyL (List.replicate 189 'a' ++ ['-', 'a'])) ≠
      slugifyL (List.replicate 189 'a' ++ ['-', 'a']) := by decide

/-- Claim C6, amended:  For every input string, the `_slugify` output is at
most 190 characters long and never empty; and `_slugify` is idempotent on
every input whose slug does not end in a hyphen — the only way a slug can
end in a hyphen is the length-bound truncation, so idempotence holds
except when truncation at 190 characters cuts the slug just after a
hyphen. -/
theorem slugify_bounded_nonempty_conditionally_idempotent (s : Str) :
    (slugifyL s).length ≤ 190 ∧ slugifyL s ≠ [] ∧
      ((slugifyL s).getLast? ≠ some '-' → slugifyL (slugifyL s) = slugifyL s) := by
  refine ⟨length_slugifyL s, slugifyL_ne_nil s, fun hl => ?_⟩
  exact slugifyL_fixed (fun c hc => mem_slugifyL hc) (chain'_slugifyL s)
    (slugifyL_ne_nil s) (head?_slugifyL s) hl (length_slugifyL s)

/-- Witness for C6: the amended statement applied at the concrete input
`"  Messi FC "`, whose slug `"messi-fc"` does not end in a hyphen. -/
theorem slugify_bounded_nonempty_conditionally_idempotent_witness :
    slugifyL (slugifyL "  Messi FC ".data) = slugifyL "  Messi FC ".data :=
  (slugify_bounded_nonempty_conditionally_idempotent "  Messi FC ".data).2.2 (by decide)

/-- Claim C1:  On a 400 answer whose JSON object carries `code = "term_exists"`,
`_create_category` and `_create_tag` return the result of the
`_get_existing_*_id` re-query (the recovered id) instead of the creation
failure; on any other non-2xx creation answer they return no id. -/
theorem create_term_conflict_recovery :
    (∀ (r : TermCreateResp) (existing : Option Nat),
      r.status = 400 → r.bodyIsDict = true → r.bodyCode = some "term_exists".data →
        create_category (some r) existing = existing ∧
        create_tag (some r) existing = existing) ∧
    (∀ (r : TermCreateResp) (existing : Option Nat),
      ¬(r.status = 200 ∨ r.status = 201) →
      ¬(r.status = 400 ∧ r.bodyIsDict = true ∧ r.bodyCode = some "term_exists".data) →
        create_category (some r) existing = none ∧
        create_tag (some r) existing = none) := by
  constructor
  · intro r existing hs hd hc
    have h2 : ¬(r.status = 200 ∨ r.status = 201) := by rw [hs]; decide
    constructor <;>
      simp [create_category, create_tag, createTermResult, if_neg h2, hs, hd, hc]
  · intro r existing h2 hte
    constructor <;>
      simp [create_category, create_tag, createTermResult, if_neg h2, if_neg hte]

/-- Witness for C1: a `term_exists` conflict recovers the id found by the
re-query, and a plain 404 yields no id. -/
theorem create_term_conflict_recovery_witness :
    create_category (some ⟨400, true, some "term_exists".data, 0⟩) (some 7) = some 7 ∧
    create_tag (some ⟨404, false, none, 0⟩) (some 7) = none :=
  ⟨(create_term_conflict_recovery.1 ⟨400, true, some "term_exists".data, 0⟩ (some 7)
      rfl rfl rfl).1,
   (create_term_conflict_recovery.2 ⟨404, false, none, 0⟩ (some 7)
      (by decide) (by decide)).2⟩

/-- Claim C4:  `_ensure_tag_ids` normalizes
`["Messi", "messi", "2", 2, "a,b", ""]` (max 10) into the deduplicated,
first-seen-ordered list `["Messi", "messi", "2", "a", "b"]`: the empty string
is dropped, `"a,b"` splits into `"a"` and `"b"`, and `"2"` and `2` collapse
into one numeric entry. -/
theorem tag_normalization_concrete :
    normalizeTags [.str "Messi".data, .str "messi".data, .str "2".data, .int 2,
        .str "a,b".data, .str "".data] 10 =
      ["Messi".data, "messi".data, "2".data, "a".data, "b".data] := by decide

theorem ensureGo_props {σ : Type} (rem : TagRemote σ) : ∀ (ts : List Str) (st : σ),
    (∀ e, e ∈ (ensureGo rem ts st).lookupCalls ∨ e ∈ (ensureGo rem ts st).createCalls →
      e ∈ ts ∧ pyIsDigit e = false ∧ 2 ≤ e.length) ∧
    ((∀ e ∈ ts, pyIsDigit e = true ∨ e.length < 2) →
      (ensureGo rem ts st).lookupCalls = [] ∧ (ensureGo rem ts st).createCalls = [] ∧
      (ensureGo rem ts st).ids = (ts.filter pyIsDigit).map pyInt) := by
  intro ts
  induction ts with
  | nil =>
    intro st
    exact ⟨fun e he => by rcases he with he | he <;> simp [ensureGo] at he,
      fun _ => ⟨rfl, rfl, rfl⟩⟩
  | cons t rest ih =>
    intro st
    by_cases hd : pyIsDigit t = true
    · have hgo : ensureGo rem (t :: rest) st =
          { ensureGo rem rest st with ids := pyInt t :: (ensureGo rem rest st).ids } := by
        simp [ensureGo, hd]
      constructor
      · intro e he
        rw [hgo] at he
        have h := (ih st).1 e he
        exact ⟨List.mem_cons_of_mem _ h.1, h.2⟩
      · intro hall
        have h := (ih st).2 (fun e he => hall e (List.mem_cons_of_mem _ he))
        rw [hgo]
        refine ⟨h.1, h.2.1, ?_⟩
        simp [List.filter_cons, hd, h.2.2]
    · by_cases hlen : 2 ≤ t.length
      · have habs : ¬(∀ e ∈ t :: rest, pyIsDigit e = true ∨ e.length < 2) := by
          intro hall
          rcases hall t (List.mem_cons_self _ _) with h | h
          · exact hd h
          · omega
        by_cases htr : optTruthy (rem.lookup st t).1 = true
        · have hgo : ensureGo rem (t :: rest) st =
              { ensureGo rem rest (rem.lookup st t).2 with
                ids := pushTruthy (rem.lookup st t).1
                  (ensureGo rem rest (rem.lookup st t).2).ids,
                lookupCalls := t :: (ensureGo rem rest (rem.lookup st t).2).lookupCalls } := by
            simp [ensureGo, hd, hlen, htr]
          constructor
          · intro e he
            rw [hgo] at he
            simp only [List.mem_cons] at he
            rcases he with (rfl | he) | he
            · exact ⟨List.mem_cons_self _ _, Bool.eq_false_iff.mpr hd, hlen⟩
            · have h := (ih _).1 e (Or.inl he)
              exact ⟨List.mem_cons_of_mem _ h.1, h.2⟩
            · have h := (ih _).1 e (Or.inr he)
              exact ⟨List.mem_cons_of_mem _ h.1, h.2⟩
          · intro hall
            exact absurd hall habs
        · have hgo : ensureGo rem (t :: rest) st =
              { ensureGo rem rest (rem.create (rem.lookup st t).2 t).2 with
                ids := pushTruthy (rem.create (rem.lookup st t).2 t).1
                  (ensureGo rem rest (rem.create (rem.lookup st t).2 t).2).ids,
                lookupCalls :=
                  t :: (ensureGo rem rest (rem.create (rem.lookup st t).2 t).2).lookupCalls,
                createCalls :=
                  t :: (ensureGo rem rest (rem.create (rem.lookup st t).2 t).2).createCalls } := by
            simp [ensureGo, hd, hlen, htr]
          constructor
          · intro e he
            rw [hgo] at he
            simp only [List.mem_cons] at he
            rcases he with (rfl | he) | (rfl | he)
            · exact ⟨List.mem_cons_self _ _, Bool.eq_false_iff.mpr hd, hlen⟩
            · have h := (ih _).1 e (Or.inl he)
              exact ⟨List.mem_cons_of_mem _ h.1, h.2⟩
            · exact ⟨List.mem_cons_self _ _, Bool.eq_false_iff.mpr hd, hlen⟩
            · have h := (ih _).1 e (Or.inr he)
              exact ⟨List.mem_cons_of_mem _ h.1, h.2⟩
          · intro hall
            exact absurd hall habs
      · have hgo : ensureGo rem (t :: rest) st = ensureGo rem rest st := by
          simp [ensureGo, hd, hlen]
        constructor
        · intro e he
          rw [hgo] at he
          have h := (ih st).1 e he
          exact ⟨List.mem_cons_of_mem _ h.1, h.2⟩
        · intro hall
          have h := (ih st).2 (fun e he => hall e (List.mem_cons_of_mem _ he))
          rw [hgo]
          refine ⟨h.1, h.2.1, ?_⟩
          rw [List.filter_cons, if_neg (by simp [hd])]
          exact h.2.2

/-- Claim C10:  In `_ensure_tag_ids`, only normalized entries that are
non-numeric and of length ≥ 2 ever reach the remote (lookup or creation);
when every normalized entry is all-digits or shorter than 2 characters, no
remote call at all is made and the resulting ids are exactly the direct
`int(...)` conversions of the all-digit entries — short non-numeric entries
contribute nothing. -/
theorem short_or_numeric_tags_never_hit_remote {σ : Type} (rem : TagRemote σ)
    (tags : List TagIn) (maxTags : Nat) (st : σ) :
    (∀ e, e ∈ (ensure_tag_ids rem tags maxTags st).lookupCalls ∨
        e ∈ (ensure_tag_ids rem tags maxTags st).createCalls →
      e ∈ normalizeTags tags maxTags ∧ pyIsDigit e = false ∧ 2 ≤ e.length) ∧
    ((∀ e ∈ normalizeTags tags maxTags, pyIsDigit e = true ∨ e.length < 2) →
      (ensure_tag_ids rem tags maxTags st).lookupCalls = [] ∧
      (ensure_tag_ids rem tags maxTags st).createCalls = [] ∧
      (ensure_tag_ids rem tags maxTags st).ids =
        ((normalizeTags tags maxTags).filter pyIsDigit).map pyInt) :=
  ensureGo_props rem (normalizeTags tags maxTags) st

/-- Witness for C10: tags `["7", "a"]` (an all-digit entry and a 1-character
name) produce no remote calls and only the direct id 7. -/
theorem short_or_numeric_tags_never_hit_remote_witness :
    (ensure_tag_ids wpTagRemote [.str "7".data, .str "a".data] 10
      (⟨[], 1⟩ : TagStore)).lookupCalls = [] ∧
    (ensure_tag_ids wpTagRemote [.str "7".data, .str "a".data] 10
      (⟨[], 1⟩ : TagStore)).createCalls = [] ∧
    (ensure_tag_ids wpTagRemote [.str "7".data, .str "a".data] 10
      (⟨[], 1⟩ : TagStore)).ids = [7] := by
  have h := (short_or_numeric_tags_never_hit_remote wpTagRemote
    [.str "7".data, .str "a".data] 10 (⟨[], 1⟩ : TagStore)).2 (by decide)
  exact ⟨h.1, h.2.1, h.2.2.trans (by decide)⟩

/-! ## Lemmas supporting the case-insensitive resolver claim -/

theorem head?_strip2 {p : Char → Bool} {l : Str} {c : Char}
    (h : (((l.dropWhile p).reverse.dropWhile p).reverse).head? = some c) : p c = false := by
  have hpre : (((l.dropWhile p).reverse.dropWhile p).reverse) <+: l.dropWhile p := by
    have hs := dropWhile_suffix' p (l.dropWhile p).reverse
    have h3 := List.reverse_prefix.mpr hs
    simpa using h3
  exact head?_dropWhile_not p l c (prefix_head?_eq hpre h)

theorem getLast?_strip2 {p : Char → Bool} {l : Str} {c : Char}
    (h : (((l.dropWhile p).reverse.dropWhile p).reverse).getLast? = some c) : p c = false := by
  rw [List.getLast?_reverse] at h
  exact head?_dropWhile_not p _ c h

theorem strip2_eq_self {p : Char → Bool} {r : Str}
    (hh : ∀ c, r.head? = some c → p c = false)
    (hl : ∀ c, r.getLast? = some c → p c = false) :
    ((r.dropWhile p).reverse.dropWhile p).reverse = r := by
  have h1 : r.dropWhile p = r := dropWhile_eq_self_of_head p r hh
  rw [h1]
  have h2 : r.reverse.dropWhile p = r.reverse := by
    apply dropWhile_eq_self_of_head
    intro c hc
    rw [List.head?_reverse] at hc
    exact hl c hc
  rw [h2, List.reverse_reverse]

theorem pyStrip_idem (s : Str) : pyStrip (pyStrip s) = pyStrip s := by
  have hh : ∀ c, (pyStrip s).head? = some c → isWsC c = false := by
    intro c hc
    unfold pyStrip at hc
    exact head?_strip2 hc
  have hl : ∀ c, (pyStrip s).getLast? = some c → isWsC c = false := by
    intro c hc
    unfold pyStrip at hc
    exact getLast?_strip2 hc
  exact strip2_eq_self hh hl

/-- The function `_slugify` depends on its input only through `name.strip().lower()`. -/
theorem slugifyL_congr {n1 n2 : Str} (h : pyLower (pyStrip n1) = pyLower (pyStrip n2)) :
    slugifyL n1 = slugifyL n2 := by
  rw [slugifyL_eq, slugifyL_eq, h]

theorem splitComma_no_comma : ∀ (s : Str), ',' ∉ s → splitComma s = [s] := by
  intro s
  induction s with
  | nil => intro _; rfl
  | cons c rest ih =>
    intro h
    unfold splitComma
    rw [if_neg (by intro hc; exact h (by rw [hc]; exact List.mem_cons_self _ _))]
    rw [ih (fun hm => h (List.mem_cons_of_mem _ hm))]

theorem alGet_alSet_same (m : CatCache) (a : Str) (v : Nat) :
    alGet (alSet m a v) a = some v := by
  simp [alGet, alSet, List.find?]

theorem alGet_alSet_alSet_same (m : CatCache) (a b : Str) (v : Nat) :
    alGet (alSet (alSet m a v) b v) a = some v := by
  by_cases h : b = a
  · subst h
    exact alGet_alSet_same _ _ _
  · unfold alGet alSet
    rw [List.find?_cons_of_neg _ (by simp [h]), List.find?_cons_of_pos _ (by simp)]
    rfl

theorem tagLookup_pos {st : TagStore} {n : Str} {j : Nat}
    (hw : ∀ e ∈ st.entries, 0 < e.id) (h : tagLookup st n = some j) : 0 < j := by
  unfold tagLookup at h
  cases hfa : st.entries.find?
      (fun e => pyLower (pyStrip e.name) == pyLower (pyStrip n)) with
  | some e =>
    rw [hfa] at h
    simp only [Option.some.injEq] at h
    exact h ▸ hw e (List.mem_of_find?_eq_some hfa)
  | none =>
    rw [hfa] at h
    cases hfb : st.entries.find? (fun e => e.slug == slugifyL n) with
    | some e =>
      rw [hfb] at h
      simp only [Option.some.injEq] at h
      exact h ▸ hw e (List.mem_of_find?_eq_some hfb)
    | none =>
      rw [hfb] at h
      cases h

theorem tagLookup_congr {st : TagStore} {a b : Str}
    (hk : pyLower (pyStrip a) = pyLower (pyStrip b))
    (hs : slugifyL a = slugifyL b) : tagLookup st a = tagLookup st b := by
  unfold tagLookup
  have h1 : (fun e : TagEntry => pyLower (pyStrip e.name) == pyLower (pyStrip a)) =
      (fun e => pyLower (pyStrip e.name) == pyLower (pyStrip b)) := by
    funext e
    rw [hk]
  have h2 : (fun e : TagEntry => e.slug == slugifyL a) =
      (fun e => e.slug == slugifyL b) := by
    funext e
    rw [hs]
  rw [h1, h2]

theorem tagLookup_none_both {st : TagStore} {n : Str} (h : tagLookup st n = none) :
    st.entries.find? (fun e => pyLower (pyStrip e.name) == pyLower (pyStrip n)) = none ∧
    st.entries.find? (fun e => e.slug == slugifyL n) = none := by
  unfold tagLookup at h
  cases hfa : st.entries.find?
      (fun e => pyLower (pyStrip e.name) == pyLower (pyStrip n)) with
  | some e =>
    rw [hfa] at h
    cases h
  | none =>
    rw [hfa] at h
    cases hfb : st.entries.find? (fun e => e.slug == slugifyL n) with
    | some e =>
      rw [hfb] at h
      cases h
    | none =>
      exact ⟨rfl, rfl⟩

theorem resolveGo_singleton {σ : Type} (rem : CatRemote σ) (n : Str) (cache : CatCache)
    (st : σ) :
    resolveGo rem [n] cache st =
      if optTruthy (pyOr (alGet cache (pyLower n)) (alGet cache (slugifyL n))) then
        ⟨pushTruthy (pyOr (alGet cache (pyLower n)) (alGet cache (slugifyL n))) [],
          cache, st, []⟩
      else
        ⟨pushTruthy (rem.create st n).1 [],
         (if optTruthy (rem.create st n).1 then
            alSet (alSet cache (pyLower n) ((rem.create st n).1.getD 0)) (slugifyL n)
              ((rem.create st n).1.getD 0)
          else cache),
         (rem.create st n).2, [n]⟩ := by
  by_cases h : optTruthy (pyOr (alGet cache (pyLower n)) (alGet cache (slugifyL n))) = true <;>
    simp [resolveGo, h]

theorem ensureGo_singleton_long {σ : Type} (rem : TagRemote σ) (t : Str) (st : σ)
    (hd : pyIsDigit t = false) (hl : 2 ≤ t.length) :
    ensureGo rem [t] st =
      if optTruthy (rem.lookup st t).1 then
        ⟨pushTruthy (rem.lookup st t).1 [], (rem.lookup st t).2, [t], []⟩
      else
        ⟨pushTruthy (rem.create (rem.lookup st t).2 t).1 [],
         (rem.create (rem.lookup st t).2 t).2, [t], [t]⟩ := by
  by_cases h : optTruthy (rem.lookup st t).1 = true <;> simp [ensureGo, hd, hl, h]

theorem cleanNames_singleton {n : Str} (hE : (pyStrip n).isEmpty = false) :
    cleanNames [n] = [pyStrip n] := by
  simp [cleanNames, List.filter, hE, pyDedup, pyDedupAux]

theorem normalizeTags_singleton {n : Str} (hc : ',' ∉ n)
    (hE : (pyStrip n).isEmpty = false) : normalizeTags [.str n] 10 = [pyStrip n] := by
  simp [normalizeTags, normTagEntry, splitComma_no_comma n hc, hE, List.filter,
    pyDedup, pyDedupAux]

/-- Claim C2:  For names equal up to case and surrounding whitespace, resolving
both through the same resolver yields the same numeric id with at most one
remote creation call, for categories (via the `categories_map` cache) and for
tags (via the remote re-lookup).  The hypotheses say: WordPress ids are
positive, the names are non-empty after stripping, contain no comma, and are
non-numeric of length ≥ 2 (so the tag path resolves them as names). -/
theorem resolver_case_insensitive_at_most_one_creation
    (cache : CatCache) (k : Nat) (store : TagStore) (n1 n2 : Str)
    (hk : 0 < k)
    (hstore : ∀ e ∈ store.entries, 0 < e.id) (hnext : 0 < store.nextId)
    (h1 : pyStrip n1 ≠ [])
    (heq : pyLower (pyStrip n1) = pyLower (pyStrip n2))
    (hc1 : ',' ∉ n1) (hc2 : ',' ∉ n2)
    (hd1 : pyIsDigit (pyStrip n1) = false) (hd2 : pyIsDigit (pyStrip n2) = false)
    (hl1 : 2 ≤ (pyStrip n1).length) (hl2 : 2 ≤ (pyStrip n2).length) :
    CatTwoNameClaim cache k n1 n2 ∧ TagTwoNameClaim store n1 n2 := by
  have h2 : pyStrip n2 ≠ [] := by
    intro hx
    apply h1
    have hempty : pyLower (pyStrip n1) = [] := by rw [heq, hx]; rfl
    simpa [pyLower] using hempty
  have hE1 : (pyStrip n1).isEmpty = false := by
    rw [Bool.eq_false_iff]
    simpa [List.isEmpty_iff] using h1
  have hE2 : (pyStrip n2).isEmpty = false := by
    rw [Bool.eq_false_iff]
    simpa [List.isEmpty_iff] using h2
  have hkey2 : pyLower (pyStrip (pyStrip n1)) = pyLower (pyStrip (pyStrip n2)) := by
    rw [pyStrip_idem, pyStrip_idem]
    exact heq
  have hslug : slugifyL (pyStrip n1) = slugifyL (pyStrip n2) := slugifyL_congr hkey2
  have hk0 : k ≠ 0 := Nat.pos_iff_ne_zero.mp hk
  constructor
  · unfold CatTwoNameClaim
    have hres1 : resolve_category_names_to_ids freshCatRemote [n1] cache k =
        { resolveGo freshCatRemote [pyStrip n1] cache k with
          ids := pyDedup (resolveGo freshCatRemote [pyStrip n1] cache k).ids } := by
      unfold resolve_category_names_to_ids
      rw [cleanNames_singleton hE1]
    by_cases hlkc : optTruthy (pyOr (alGet cache (pyLower (pyStrip n1)))
        (alGet cache (slugifyL (pyStrip n1)))) = true
    · obtain ⟨i, hi0, hiL⟩ : ∃ i, i ≠ 0 ∧
          pyOr (alGet cache (pyLower (pyStrip n1)))
            (alGet cache (slugifyL (pyStrip n1))) = some i := by
        cases hL : pyOr (alGet cache (pyLower (pyStrip n1)))
            (alGet cache (slugifyL (pyStrip n1))) with
        | none => rw [hL] at hlkc; simp [optTruthy] at hlkc
        | some i =>
          rw [hL] at hlkc
          simp only [optTruthy, ne_eq, bne_iff_ne] at hlkc
          exact ⟨i, hlkc, rfl⟩
      have hr1go : resolveGo freshCatRemote [pyStrip n1] cache k =
          ⟨[i], cache, k, []⟩ := by
        rw [resolveGo_singleton, if_pos hlkc, hiL]
        simp [pushTruthy, optTruthy, hi0]
      have hr2cond : pyOr (alGet cache (pyLower (pyStrip n2)))
          (alGet cache (slugifyL (pyStrip n2))) = some i := by
        rw [← heq, ← hslug]
        exact hiL
      have hr2go : resolveGo freshCatRemote [pyStrip n2] cache k =
          ⟨[i], cache, k, []⟩ := by
        rw [resolveGo_singleton, hr2cond]
        rw [if_pos (by simp [optTruthy, hi0])]
        simp [pushTruthy, optTruthy, hi0]
      have hr1 : resolve_category_names_to_ids freshCatRemote [n1] cache k =
          ⟨[i], cache, k, []⟩ := by
        rw [hres1, hr1go]
        simp [pyDedup, pyDedupAux]
      have hr2 : resolve_category_names_to_ids freshCatRemote [n2] cache k =
          ⟨[i], cache, k, []⟩ := by
        unfold resolve_category_names_to_ids
        rw [cleanNames_singleton hE2, hr2go]
        simp [pyDedup, pyDedupAux]
      simp only [hr1]
      simp only [hr2]
      refine ⟨⟨i, Nat.pos_of_ne_zero hi0, rfl, rfl⟩, by simp, fun _ => trivial,
        fun hne => absurd rfl hne⟩
    · have hLf : optTruthy (pyOr (alGet cache (pyLower (pyStrip n1)))
          (alGet cache (slugifyL (pyStrip n1)))) = false := Bool.eq_false_iff.mpr hlkc
      have hr1go : resolveGo freshCatRemote [pyStrip n1] cache k =
          ⟨[k], alSet (alSet cache (pyLower (pyStrip n1)) k) (slugifyL (pyStrip n1)) k,
            k + 1, [pyStrip n1]⟩ := by
        rw [resolveGo_singleton, if_neg hlkc]
        simp [freshCatRemote, pushTruthy, optTruthy, hk0]
      have hgetk : alGet (alSet (alSet cache (pyLower (pyStrip n1)) k)
          (slugifyL (pyStrip n1)) k) (pyLower (pyStrip n2)) = some k := by
        rw [← heq]
        exact alGet_alSet_alSet_same cache _ _ k
      have hr2cond : pyOr (alGet (alSet (alSet cache (pyLower (pyStrip n1)) k)
            (slugifyL (pyStrip n1)) k) (pyLower (pyStrip n2)))
          (alGet (alSet (alSet cache (pyLower (pyStrip n1)) k)
            (slugifyL (pyStrip n1)) k) (slugifyL (pyStrip n2))) = some k := by
        rw [hgetk]
        simp [pyOr, optTruthy, hk0]
      have hr2go : resolveGo freshCatRemote [pyStrip n2]
          (alSet (alSet cache (pyLower (pyStrip n1)) k) (slugifyL (pyStrip n1)) k)
          (k + 1) =
          ⟨[k], alSet (alSet cache (pyLower (pyStrip n1)) k) (slugifyL (pyStrip n1)) k,
            k + 1, []⟩ := by
        rw [resolveGo_singleton, hr2cond]
        rw [if_pos (by simp [optTruthy, hk0])]
        simp [pushTruthy, optTruthy, hk0]
      have hr1 : resolve_category_names_to_ids freshCatRemote [n1] cache k =
          ⟨[k], alSet (alSet cache (pyLower (pyStrip n1)) k) (slugifyL (pyStrip n1)) k,
            k + 1, [pyStrip n1]⟩ := by
        rw [hres1, hr1go]
        simp [pyDedup, pyDedupAux]
      have hr2 : resolve_category_names_to_ids freshCatRemote [n2]
          (alSet (alSet cache (pyLower (pyStrip n1)) k) (slugifyL (pyStrip n1)) k)
          (k + 1) =
          ⟨[k], alSet (alSet cache (pyLower (pyStrip n1)) k) (slugifyL (pyStrip n1)) k,
            k + 1, []⟩ := by
        unfold resolve_category_names_to_ids
        rw [cleanNames_singleton hE2, hr2go]
        simp [pyDedup, pyDedupAux]
      simp only [hr1]
      simp only [hr2]
      refine ⟨⟨k, hk, rfl, rfl⟩, by simp, ?_, ?_⟩
      · intro hln
        rw [hLf] at hln
        cases hln
      · intro _
        exact ⟨alGet_alSet_alSet_same cache _ _ k, alGet_alSet_same _ _ k⟩
  · unfold TagTwoNameClaim
    have ht1 : ensure_tag_ids wpTagRemote [.str n1] 10 store =
        ensureGo wpTagRemote [pyStrip n1] store := by
      unfold ensure_tag_ids
      rw [normalizeTags_singleton hc1 hE1]
    have ht2pre : ∀ st' : TagStore, ensure_tag_ids wpTagRemote [.str n2] 10 st' =
        ensureGo wpTagRemote [pyStrip n2] st' := by
      intro st'
      unfold ensure_tag_ids
      rw [normalizeTags_singleton hc2 hE2]
    cases hlk : tagLookup store (pyStrip n1) with
    | some j =>
      have hj : 0 < j := tagLookup_pos hstore hlk
      have hj0 : j ≠ 0 := Nat.pos_iff_ne_zero.mp hj
      have hgo1 : ensureGo wpTagRemote [pyStrip n1] store =
          ⟨[j], store, [pyStrip n1], []⟩ := by
        rw [ensureGo_singleton_long _ _ _ hd1 hl1]
        show (if optTruthy (tagLookup store (pyStrip n1)) then _ else _) = _
        rw [hlk]
        rw [if_pos (by simp [optTruthy, hj0])]
        simp [pushTruthy, optTruthy, hj0, wpTagRemote, hlk]
      have hlk2 : tagLookup store (pyStrip n2) = some j :=
        tagLookup_congr hkey2 hslug ▸ hlk
      have hgo2 : ensureGo wpTagRemote [pyStrip n2] store =
          ⟨[j], store, [pyStrip n2], []⟩ := by
        rw [ensureGo_singleton_long _ _ _ hd2 hl2]
        show (if optTruthy (tagLookup store (pyStrip n2)) then _ else _) = _
        rw [hlk2]
        rw [if_pos (by simp [optTruthy, hj0])]
        simp [pushTruthy, optTruthy, hj0, wpTagRemote, hlk2]
      simp only [ht1, hgo1]
      simp only [ht2pre, hgo2]
      exact ⟨⟨j, hj, rfl, rfl⟩, by simp⟩
    | none =>
      have hnext0 : store.nextId ≠ 0 := Nat.pos_iff_ne_zero.mp hnext
      have hgo1 : ensureGo wpTagRemote [pyStrip n1] store =
          ⟨[store.nextId],
           ⟨store.entries ++ [⟨store.nextId, pyStrip n1, slugifyL (pyStrip n1)⟩],
             store.nextId + 1⟩, [pyStrip n1], [pyStrip n1]⟩ := by
        rw [ensureGo_singleton_long _ _ _ hd1 hl1]
        show (if optTruthy (tagLookup store (pyStrip n1)) then _ else _) = _
        rw [hlk]
        rw [if_neg (by simp [optTruthy])]
        simp [wpTagRemote, hlk, tagStoreCreate, pushTruthy, optTruthy, hnext0]
      have hboth := tagLookup_none_both hlk
      have hlk2 : tagLookup
          (⟨store.entries ++ [⟨store.nextId, pyStrip n1, slugifyL (pyStrip n1)⟩],
            store.nextId + 1⟩ : TagStore) (pyStrip n2) = some store.nextId := by
        have hA : store.entries.find?
            (fun e => pyLower (pyStrip e.name) == pyLower (pyStrip (pyStrip n2))) =
            none := by
          have hcongr : (fun e : TagEntry =>
              pyLower (pyStrip e.name) == pyLower (pyStrip (pyStrip n2))) =
              (fun e => pyLower (pyStrip e.name) == pyLower (pyStrip (pyStrip n1))) := by
            funext e
            rw [hkey2]
          rw [hcongr]
          exact hboth.1
        have hf1 : (store.entries ++
            [(⟨store.nextId, pyStrip n1, slugifyL (pyStrip n1)⟩ : TagEntry)]).find?
            (fun e => pyLower (pyStrip e.name) == pyLower (pyStrip (pyStrip n2))) =
            some ⟨store.nextId, pyStrip n1, slugifyL (pyStrip n1)⟩ := by
          rw [List.find?_append, hA]
          simp [List.find?, hkey2]
        unfold tagLookup
        rw [hf1]
      have hgo2 : ensureGo wpTagRemote [pyStrip n2]
          (⟨store.entries ++ [⟨store.nextId, pyStrip n1, slugifyL (pyStrip n1)⟩],
            store.nextId + 1⟩ : TagStore) =
          ⟨[store.nextId],
           ⟨store.entries ++ [⟨store.nextId, pyStrip n1, slugifyL (pyStrip n1)⟩],
             store.nextId + 1⟩, [pyStrip n2], []⟩ := by
        rw [ensureGo_singleton_long _ _ _ hd2 hl2]
        show (if optTruthy (tagLookup _ (pyStrip n2)) then _ else _) = _
        rw [hlk2]
        rw [if_pos (by simp [optTruthy, hnext0])]
        simp [pushTruthy, optTruthy, hnext0, wpTagRemote, hlk2]
      simp only [ht1, hgo1]
      simp only [ht2pre, hgo2]
      exact ⟨⟨store.nextId, hnext, rfl, rfl⟩, by simp⟩

/-- Witness for C2: `"Messi"` and `" MESSI "` resolved through an empty cache
and an empty tag store. -/
theorem resolver_case_insensitive_at_most_one_creation_witness :
    CatTwoNameClaim [] 5 "Messi".data " MESSI ".data ∧
    TagTwoNameClaim ⟨[], 1⟩ "Messi".data " MESSI ".data :=
  resolver_case_insensitive_at_most_one_creation [] 5 ⟨[], 1⟩ "Messi".data " MESSI ".data
    (by decide) (by simp) (by decide) (by decide) (by decide) (by decide) (by decide)
    (by decide) (by decide) (by decide) (by decide)

theorem uploadGo_succ (f : Nat → UploadOutcome) (attempt r : Nat) :
    uploadGo f attempt (r + 1) =
      match f attempt with
      | .success a => (some a, attempt, [])
      | .otherErr => (none, attempt, [])
      | .netErr =>
        ((uploadGo f (attempt + 1) r).1, (uploadGo f (attempt + 1) r).2.1,
          2 * attempt :: (uploadGo f (attempt + 1) r).2.2) := rfl

theorem uploadGo_all_net (f : Nat → UploadOutcome) (hf : ∀ i, f i = .netErr) :
    ∀ (remaining attempt : Nat),
      uploadGo f attempt remaining =
        (none, attempt + remaining - 1,
          (List.range remaining).map (fun j => 2 * (attempt + j))) := by
  intro remaining
  induction remaining with
  | zero => intro attempt; simp [uploadGo]
  | succ r ih =>
    intro attempt
    rw [uploadGo_succ, hf attempt, ih (attempt + 1)]
    simp only [Prod.mk.injEq]
    refine ⟨by trivial, by omega, ?_⟩
    rw [List.range_succ_eq_map]
    simp only [List.map_cons, List.map_map]
    refine congrArg₂ _ (by omega) ?_
    apply List.map_congr_left
    intro j _
    simp only [Function.comp_apply]
    omega

theorem uploadGo_other_at (f : Nat → UploadOutcome) :
    ∀ (k remaining attempt : Nat), f (attempt + k) = .otherErr →
      (∀ i, attempt ≤ i → i < attempt + k → f i = .netErr) → k < remaining →
      (uploadGo f attempt remaining).1 = none ∧
      (uploadGo f attempt remaining).2.1 = attempt + k := by
  intro k
  induction k with
  | zero =>
    intro remaining attempt hother _ hlt
    obtain ⟨r, rfl⟩ : ∃ r, remaining = r + 1 := ⟨remaining - 1, by omega⟩
    rw [Nat.add_zero] at hother
    rw [uploadGo_succ, hother]
    exact ⟨rfl, rfl⟩
  | succ k ih =>
    intro remaining attempt hother hnet hlt
    obtain ⟨r, rfl⟩ : ∃ r, remaining = r + 1 := ⟨remaining - 1, by omega⟩
    have hatt : f attempt = .netErr := hnet attempt (le_refl _) (by omega)
    have hrec := ih r (attempt + 1)
      (by rw [show attempt + 1 + k = attempt + (k + 1) by omega]; exact hother)
      (fun i hi1 hi2 => hnet i (by omega) (by omega)) (by omega)
    rw [uploadGo_succ, hatt]
    refine ⟨hrec.1, ?_⟩
    have h2 := hrec.2
    show (uploadGo f (attempt + 1) r).2.1 = attempt + (k + 1)
    omega

/-- Claim C3:  `upload_media_from_url` retries only network-level failures with
linear backoff, up to `max_attempts`: two connection timeouts then a success
return the attachment after exactly 3 attempts with sleeps `[2, 4]`; a
non-network failure (e.g. a 404) on the first attempt returns the failure
after exactly 1 attempt; all attempts network-failing returns the failure
after exactly `m` attempts with sleeps `2, 4, …, 2m`; and a non-network
failure at attempt `k` (network failures before) stops at exactly `k`
attempts with no attachment. -/
theorem upload_retry_policy :
    (∀ alt : Str,
      upload_media_from_url (fun i => if i ≤ 2 then .netErr else .success 42) alt 3 =
        (some 42, 3, [2, 4], 0)) ∧
    (∀ alt : Str,
      upload_media_from_url (fun _ => .otherErr) alt 3 = (none, 1, [], 0)) ∧
    (∀ (f : Nat → UploadOutcome) (alt : Str) (m : Nat), 1 ≤ m →
      (∀ i, f i = .netErr) →
      upload_media_from_url f alt m =
        (none, m, (List.range m).map (fun j => 2 * (j + 1)), 0)) ∧
    (∀ (f : Nat → UploadOutcome) (alt : Str) (m k : Nat), 1 ≤ k → k ≤ m →
      f k = .otherErr → (∀ i, 1 ≤ i → i < k → f i = .netErr) →
      (upload_media_from_url f alt m).1 = none ∧
      (upload_media_from_url f alt m).2.1 = k) := by
  refine ⟨fun alt => rfl, fun alt => rfl, ?_, ?_⟩
  · intro f alt m hm hf
    unfold upload_media_from_url
    rw [uploadGo_all_net f hf m 1]
    simp only [Prod.mk.injEq]
    refine ⟨by trivial, by omega, ?_, by trivial⟩
    apply List.map_congr_left
    intro j _
    omega
  · intro f alt m k hk1 hkm hother hnet
    have h := uploadGo_other_at f (k - 1) m 1
      (by rw [show 1 + (k - 1) = k by omega]; exact hother)
      (fun i hi1 hi2 => hnet i hi1 (by omega)) (by omega)
    refine ⟨?_, ?_⟩
    · show (uploadGo f 1 m).1 = none
      exact h.1
    · show (uploadGo f 1 m).2.1 = k
      have h2 := h.2
      omega

/-- Witness for C3: three straight network failures exhaust the three
attempts, with sleeps 2, 4 and 6 and no attachment. -/
theorem upload_retry_policy_witness :
    upload_media_from_url (fun _ => .netErr) [] 3 = (none, 3, [2, 4, 6], 0) := by
  have h := upload_retry_policy.2.2.1 (fun _ => .netErr) [] 3 (by decide) (fun _ => rfl)
  exact h.trans (by decide)

/-- Claim C7, code-bug evidence:  `upload_media_from_url` accepts `alt_text` but never
uses it: the result is independent of the alt text, and even a successful
upload with a non-empty alt text performs zero `set_media_alt_text` calls —
no secondary annotation call exists in the function.  (`set_media_alt_text`
itself, were it called, would return `False` on failure rather than raise.) -/
theorem upload_never_calls_set_media_alt_text :
    (∀ (f : Nat → UploadOutcome) (a1 a2 : Str) (m : Nat),
      upload_media_from_url f a1 m = upload_media_from_url f a2 m) ∧
    upload_media_from_url (fun _ => .success 42) "A photo".data 3 = (some 42, 1, [], 0) ∧
    (∀ alt : Str, set_media_alt_text false alt = false) :=
  ⟨fun _ _ _ _ => rfl, rfl, fun alt => by unfold set_media_alt_text; split <;> rfl⟩

/-- Claim C5:  The paginated fetch requests pages of 100, accumulates, and
stops exactly on a short page or on reaching the caller's limit (trimming
past it); a request failure returns what was accumulated so far.  Concrete:
pages of sizes [100,100,37] yield 237 items in exactly 3 requests — no 4th
request regardless of what later pages would answer; `max_posts = 50` yields
exactly 50 items after only the first page; an error on page 3 after two full
pages keeps the 200 accumulated items.  The last three conjuncts state the
failure-containment step for both loops and the category-loop request count
on a [100,37] page sequence. -/
theorem pagination_stops_and_keeps_accumulated :
    (∀ g : Nat → PageResp Nat,
      (get_published_posts (fun p => if p = 1 then .ok (List.replicate 100 1)
          else if p = 2 then .ok (List.replicate 100 2)
          else if p = 3 then .ok (List.replicate 37 3) else g p) none 10).1.length = 237 ∧
      (get_published_posts (fun p => if p = 1 then .ok (List.replicate 100 1)
          else if p = 2 then .ok (List.replicate 100 2)
          else if p = 3 then .ok (List.replicate 37 3) else g p) none 10).2 = 3) ∧
    (∀ g : Nat → PageResp Nat,
      (get_published_posts (fun p => if p = 1 then .ok (List.replicate 100 1) else g p)
          (some 50) 10).1.length = 50 ∧
      (get_published_posts (fun p => if p = 1 then .ok (List.replicate 100 1) else g p)
          (some 50) 10).2 = 1) ∧
    ((get_published_posts (fun p => if p ≤ 2 then .ok (List.replicate 100 p) else .err)
        none 10).1.length = 200 ∧
      (get_published_posts (fun p => if p ≤ 2 then .ok (List.replicate 100 p) else .err)
        none 10).2 = 3) ∧
    (∀ (pages : Nat → PageResp Nat) (maxPosts : Option Nat) (fuel page reqs : Nat)
        (acc : List Nat), pages page = .err → limitReached maxPosts acc.length = false →
      postsGo pages maxPosts (fuel + 1) page acc reqs = (acc, reqs + 1)) ∧
    (∀ (pages : Nat → PageResp CatItem) (fuel page reqs : Nat) (acc : CatCache),
      pages page = .err → catsGo pages (fuel + 1) page acc reqs = (acc, reqs + 1)) ∧
    (∀ g : Nat → PageResp CatItem,
      (fetch_all_categories (fun p => if p = 1 then .ok (List.replicate 100 ⟨['x'], ['y'], 5⟩)
          else if p = 2 then .ok (List.replicate 37 ⟨['x'], ['y'], 5⟩) else g p) 10).2 =
        2) := by
  refine ⟨fun g => ⟨rfl, rfl⟩, fun g => ⟨rfl, rfl⟩,
    ⟨by decide, by decide⟩, ?_, ?_, fun g => rfl⟩
  · intro pages maxPosts fuel page reqs acc herr hlim
    simp [postsGo, hlim, herr]
  · intro pages fuel page reqs acc herr
    simp [catsGo, herr]

/-- Witness for C5: the failure-containment steps applied concretely — an
always-failing page oracle returns the accumulator unchanged after one
counted request, for both loops. -/
theorem pagination_stops_and_keeps_accumulated_witness :
    postsGo (fun _ => .err) none 5 1 [7, 8] 2 = ([7, 8], 3) ∧
    catsGo (fun _ => .err) 5 1 [(['a'], 4)] 2 = ([(['a'], 4)], 3) :=
  ⟨pagination_stops_and_keeps_accumulated.2.2.2.1 (fun _ => .err) none 4 1 2 [7, 8] rfl rfl,
   pagination_stops_and_keeps_accumulated.2.2.2.2.1 (fun _ => .err) 4 1 2 [(['a'], 4)] rfl⟩

/-- Claim C8:  `create_post` sends status `'publish'` exactly when the caller
supplied none (and the caller's status verbatim otherwise); on a success
answer it returns the body's numeric post id; on a non-success answer it
returns no id and surfaces the remote status code and body. -/
theorem create_post_defaults_and_surfaces {σ τ : Type} (tagRem : TagRemote σ)
    (catRem : CatRemote τ) (stT : σ) (cache : CatCache) (stC : τ)
    (p : PostPayload) (r : PostResp) :
    ((create_post tagRem catRem (fun _ => r) stT cache stC p).2.2.status =
      match p.status with | none => "publish".data | some s => s) ∧
    (∀ st body i, r = .resp st body (some i) → st < 400 →
      (create_post tagRem catRem (fun _ => r) stT cache stC p).1 = some i) ∧
    (∀ st body idf, r = .resp st body idf → 400 ≤ st →
      (create_post tagRem catRem (fun _ => r) stT cache stC p).1 = none ∧
      (st, body) ∈ (create_post tagRem catRem (fun _ => r) stT cache stC p).2.1) := by
  refine ⟨?_, ?_, ?_⟩
  · cases r with
    | netErr => rfl
    | resp st body idf =>
      show (if st < 400 then _ else _ :
        Option Nat × List (Nat × Str) × SentPost).2.2.status = _
      split <;> rfl
  · intro st body i hr hst
    subst hr
    show (if st < 400 then (some i, [], buildSentPost tagRem catRem stT cache stC p)
      else (none, [(st, body)], buildSentPost tagRem catRem stT cache stC p)).1 = some i
    rw [if_pos hst]
  · intro st body idf hr hst
    subst hr
    have hlt : ¬st < 400 := by omega
    constructor
    · show (if st < 400 then (idf, [], buildSentPost tagRem catRem stT cache stC p)
        else (none, [(st, body)], buildSentPost tagRem catRem stT cache stC p)).1 = none
      rw [if_neg hlt]
    · show (st, body) ∈ (if st < 400
        then (idf, [], buildSentPost tagRem catRem stT cache stC p)
        else (none, [(st, body)], buildSentPost tagRem catRem stT cache stC p)).2.1
      rw [if_neg hlt]
      exact List.mem_cons_self _ _

/-- Witness for C8: a payload without a status is sent as `'publish'`; a 201
answer with id 33 returns 33; a 500 answer returns no id and surfaces
`(500, body)`. -/
theorem create_post_defaults_and_surfaces_witness :
    ((create_post wpTagRemote freshCatRemote (fun _ => .resp 201 [] (some 33))
        (⟨[], 1⟩ : TagStore) [] 5
        ⟨"T".data, "B".data, none, [], []⟩).2.2.status = "publish".data) ∧
    ((create_post wpTagRemote freshCatRemote (fun _ => .resp 201 [] (some 33))
        (⟨[], 1⟩ : TagStore) [] 5
        ⟨"T".data, "B".data, none, [], []⟩).1 = some 33) ∧
    ((create_post wpTagRemote freshCatRemote (fun _ => .resp 500 "boom".data none)
        (⟨[], 1⟩ : TagStore) [] 5
        ⟨"T".data, "B".data, none, [], []⟩).1 = none) ∧
    ((500, "boom".data) ∈ (create_post wpTagRemote freshCatRemote
        (fun _ => .resp 500 "boom".data none) (⟨[], 1⟩ : TagStore) [] 5
        ⟨"T".data, "B".data, none, [], []⟩).2.1) := by
  have h1 := (create_post_defaults_and_surfaces wpTagRemote freshCatRemote
    (⟨[], 1⟩ : TagStore) [] 5 ⟨"T".data, "B".data, none, [], []⟩
    (.resp 201 [] (some 33)))
  have h2 := (create_post_defaults_and_surfaces wpTagRemote freshCatRemote
    (⟨[], 1⟩ : TagStore) [] 5 ⟨"T".data, "B".data, none, [], []⟩
    (.resp 500 "boom".data none))
  exact ⟨h1.1, h1.2.1 201 [] 33 rfl (by decide),
    (h2.2.2 500 "boom".data none rfl (by decide)).1,
    (h2.2.2 500 "boom".data none rfl (by decide)).2⟩

theorem alGet_append_some {m1 m2 : CatCache} {k : Str} {v : Nat}
    (h : alGet m1 k = some v) : alGet (m1 ++ m2) k = some v := by
  unfold alGet at h ⊢
  cases hf : m1.find? (fun p => p.1 == k) with
  | none => rw [hf] at h; cases h
  | some q =>
    rw [hf] at h
    rw [List.find?_append, hf]
    simpa using h

theorem alGet_append_none {m1 m2 : CatCache} {k : Str}
    (h : alGet m1 k = none) : alGet (m1 ++ m2) k = alGet m2 k := by
  unfold alGet at h ⊢
  have hf : m1.find? (fun p => p.1 == k) = none := by
    cases hf : m1.find? (fun p => p.1 == k) with
    | none => rfl
    | some q => rw [hf] at h; cases h
  rw [List.find?_append, hf, Option.none_or]

/-- Claim C9:  A missing or empty base URL fails at construction with the
`ValueError` message and zero remote requests, for every possible remote;
on the success path the categories cache is the lowercased static map
overridden by the live fetch (a fetched key wins, a key absent from the
fetch falls back to the static entry); and remote failures inside the public
operations come back as failure *values*, never as exceptions — shown for
`create_post` under a network failure and for `upload_media_from_url` with
all attempts network-failing. -/
theorem client_init_fatal_and_fetch_overrides_static :
    (∀ (cfg : WpConfig) (staticMap : CatCache) (pages : Nat → PageResp CatItem)
        (fuel : Nat),
      rstripSlash (match cfg.url with | none => [] | some u => u) = [] →
      clientInit cfg staticMap pages fuel =
        (.error "WORDPRESS_URL is not configured.".data, 0)) ∧
    (∀ (cfg : WpConfig) (staticMap : CatCache) (pages : Nat → PageResp CatItem)
        (fuel : Nat),
      rstripSlash (match cfg.url with | none => [] | some u => u) ≠ [] →
      ∀ apiUrl m, (clientInit cfg staticMap pages fuel).1 = .ok (apiUrl, m) →
        (∀ k v, alGet (fetch_all_categories pages fuel).1 k = some v →
          alGet m k = some v) ∧
        (∀ k, alGet (fetch_all_categories pages fuel).1 k = none →
          alGet m k = alGet (staticMap.map (fun q => (pyLower q.1, q.2))) k)) ∧
    (∀ (tagRem : TagRemote TagStore) (catRem : CatRemote Nat) (stT : TagStore)
        (cache : CatCache) (stC : Nat) (p : PostPayload),
      (create_post tagRem catRem (fun _ => .netErr) stT cache stC p).1 = none) ∧
    (∀ (f : Nat → UploadOutcome) (alt : Str) (m : Nat), (∀ i, f i = .netErr) →
      (upload_media_from_url f alt m).1 = none) := by
  refine ⟨?_, ?_, ?_, ?_⟩
  · intro cfg staticMap pages fuel h
    unfold clientInit
    rw [if_pos (by rw [h]; rfl)]
  · intro cfg staticMap pages fuel h apiUrl m hok
    unfold clientInit at hok
    rw [if_neg (by simpa [List.isEmpty_iff] using h)] at hok
    have hm : m = (fetch_all_categories pages fuel).1 ++
        staticMap.map (fun q => (pyLower q.1, q.2)) := by
      have := hok
      simp only [Except.ok.injEq, Prod.mk.injEq] at this
      exact this.2.symm
    subst hm
    exact ⟨fun k v hv => alGet_append_some hv, fun k hn => alGet_append_none hn⟩
  · intro tagRem catRem stT cache stC p
    rfl
  · intro f alt m hf
    show (uploadGo f 1 m).1 = none
    rw [uploadGo_all_net f hf m 1]

/-- Witness for C9: a config with `url = None` fails with the `ValueError`
message and zero requests; with a live fetch answering one short page, a
fetched entry overrides the static entry under the same key; and a network
failure in `create_post` / `upload_media_from_url` yields the failure value. -/
theorem client_init_fatal_and_fetch_overrides_static_witness :
    clientInit ⟨none, none, none⟩ [("Noticias".data, 1)] (fun _ => .err) 5 =
      (.error "WORDPRESS_URL is not configured.".data, 0) ∧
    (upload_media_from_url (fun _ => .netErr) [] 3).1 = none := by
  constructor
  · exact client_init_fatal_and_fetch_overrides_static.1 ⟨none, none, none⟩
      [("Noticias".data, 1)] (fun _ => .err) 5 (by decide)
  · exact client_init_fatal_and_fetch_overrides_static.2.2.2
      (fun _ => .netErr) [] 3 (fun _ => rfl)
